import Mathlib

/-!
Shallow embedding of `src/squarespace-display-multi-currency.js`.

JavaScript numbers are modelled by `JSNum` (NaN, signed infinity, or an exact
rational); machine floating point rounding is abstracted to exact rationals,
which is faithful for every value the claims mention.  Strings are Lean
strings; `String.split` on a one-character separator is modelled by the
character-level `jsSplit`.  Host primitives (`fetch`, `Intl.NumberFormat`,
DOM queries) are modelled from their standard semantics (ECMA-262, ECMA-402,
DOM), with the page reduced to the handful of elements the script touches.
-/

/-- JS number: NaN, positive or negative Infinity, or a finite value
(modelled as an exact rational). -/
inductive JSNum where
  | nan : JSNum
  | inf : Bool → JSNum
  | num : ℚ → JSNum
deriving DecidableEq, Repr

/-- Product of two rationals, built directly from numerators and
denominators (`mkRat` renormalizes, so this equals ordinary rational
multiplication). -/
def ratMul (p q : ℚ) : ℚ :=
  mkRat (p.num * q.num) (p.den * q.den)

/-- JS multiplication on `JSNum` (ECMA-262 Number::multiply): NaN is
absorbing, Infinity times zero is NaN, otherwise signs multiply. -/
def jsMul : JSNum → JSNum → JSNum
  | JSNum.nan, _ => JSNum.nan
  | _, JSNum.nan => JSNum.nan
  | JSNum.inf s, JSNum.inf t => JSNum.inf (xor s t)
  | JSNum.inf s, JSNum.num q =>
      if q = 0 then JSNum.nan else JSNum.inf (xor s (decide (q < 0)))
  | JSNum.num q, JSNum.inf t =>
      if q = 0 then JSNum.nan else JSNum.inf (xor (decide (q < 0)) t)
  | JSNum.num p, JSNum.num q => JSNum.num (ratMul p q)

/-- JS leading whitespace accepted by `parseFloat` (the ASCII part of
ECMA-262 WhiteSpace / LineTerminator). -/
def isJSWhitespace (c : Char) : Bool :=
  c = ' ' || c = '\t' || c = '\n' || c = '\r' || c = '\x0b' || c = '\x0c'

/-- Numeric value of a list of decimal digit characters (most significant
first). -/
def digitsVal (ds : List Char) : Nat :=
  ds.foldl (fun a c => 10 * a + (c.toNat - '0'.toNat)) 0

/-- Value of a decimal literal with sign `neg`, integer digits `ip`,
fraction digits `fp` and decimal exponent `e`, as an exact rational:
`(ip.fp) * 10 ^ e`, negated when `neg`. -/
def decimalValue (neg : Bool) (ip fp : List Char) (e : Int) : ℚ :=
  let n : Int := (digitsVal ip * 10 ^ fp.length + digitsVal fp : Nat)
  let v : ℚ :=
    if 0 ≤ e then mkRat (n * 10 ^ e.toNat) (10 ^ fp.length)
    else mkRat n (10 ^ (fp.length + (-e).toNat))
  if neg then -v else v

/-- Optional exponent part of a JS decimal literal (`e`/`E`, optional sign,
digits); contributes exponent 0 when absent or malformed, matching
longest-valid-prefix parsing. -/
def parseExpOpt : List Char → Int
  | [] => 0
  | c :: rest =>
    if c = 'e' ∨ c = 'E' then
      match rest with
      | '+' :: ds =>
          if (ds.takeWhile Char.isDigit).isEmpty then 0
          else ((digitsVal (ds.takeWhile Char.isDigit) : Nat) : Int)
      | '-' :: ds =>
          if (ds.takeWhile Char.isDigit).isEmpty then 0
          else -((digitsVal (ds.takeWhile Char.isDigit) : Nat) : Int)
      | ds =>
          if (ds.takeWhile Char.isDigit).isEmpty then 0
          else ((digitsVal (ds.takeWhile Char.isDigit) : Nat) : Int)
    else 0

/-- Strip an optional leading sign, returning whether it was a minus. -/
def splitSign : List Char → Bool × List Char
  | [] => (false, [])
  | c :: r => if c = '+' then (false, r) else if c = '-' then (true, r) else (false, c :: r)

/-- ECMA-262 `parseFloat` after whitespace and sign stripping: `Infinity`,
or `digits [. digits] [exp]`, or `. digits [exp]`; NaN when no valid
literal starts the input. -/
def parseFloatSigned (neg : Bool) (cs : List Char) : JSNum :=
  if "Infinity".data.isPrefixOf cs then JSNum.inf neg
  else
    match cs with
    | [] => JSNum.nan
    | c :: rest =>
      if c.isDigit then
        let ip := (c :: rest).takeWhile Char.isDigit
        let rest1 := (c :: rest).dropWhile Char.isDigit
        match rest1 with
        | '.' :: rest2 =>
          let fp := rest2.takeWhile Char.isDigit
          let rest3 := rest2.dropWhile Char.isDigit
          JSNum.num (decimalValue neg ip fp (parseExpOpt rest3))
        | _ => JSNum.num (decimalValue neg ip [] (parseExpOpt rest1))
      else if c = '.' then
        match rest with
        | d :: _ =>
          if d.isDigit then
            let fp := rest.takeWhile Char.isDigit
            let rest3 := rest.dropWhile Char.isDigit
            JSNum.num (decimalValue neg [] fp (parseExpOpt rest3))
          else JSNum.nan
        | [] => JSNum.nan
      else JSNum.nan

/-- `parseFloat` on a character list. -/
def parseFloatL (cs : List Char) : JSNum :=
  let p := splitSign (cs.dropWhile isJSWhitespace)
  parseFloatSigned p.1 p.2

/-- JS `parseFloat` on a string. -/
def parseFloat (s : String) : JSNum :=
  parseFloatL s.data

/-- Whether a character list starts with a digit. -/
def headDigit : List Char → Bool
  | c :: _ => c.isDigit
  | [] => false

/-- Whether a character list starts (after whitespace/sign removal already
done) with a numeric literal: a digit, a dot followed by a digit, or the
word `Infinity`.  This is the spec-side notion of a "numeric" field. -/
def numericStart : List Char → Bool
  | [] => false
  | c :: rest =>
    c.isDigit || (decide (c = '.') && headDigit rest) || "Infinity".data.isPrefixOf (c :: rest)

/-- Whether a string is "numeric" for `parseFloat`: after optional leading
whitespace and sign it starts with a numeric literal. -/
def numericField (s : String) : Bool :=
  numericStart (splitSign (s.data.dropWhile isJSWhitespace)).2

/-- JS `String.prototype.split` with a one-character separator: splits on
every occurrence, keeping empty pieces; the empty string yields one empty
piece. -/
def jsSplit (sep : Char) : List Char → List (List Char)
  | [] => [[]]
  | c :: rest =>
    if c = sep then [] :: jsSplit sep rest
    else
      match jsSplit sep rest with
      | h :: t => (c :: h) :: t
      | [] => [[c]]

/-- One exchange-rate record: `{ currency, rate }` as produced by
`parseCsvRows`. -/
structure RateRecord where
  currency : String
  rate : JSNum
deriving DecidableEq, Repr

/-- The arrow function mapped by `parseCsvRows` over the rows:
`const [currency, rate] = row.split(','); return { currency, rate: parseFloat(rate) }`.
With no comma the destructured `rate` is `undefined`, and
`parseFloat(undefined)` coerces to `parseFloat("undefined")`, i.e. NaN. -/
def parseCsvRow (row : String) : RateRecord :=
  let parts := jsSplit ',' row.data
  { currency := String.mk (parts.headD []),
    rate :=
      match parts.get? 1 with
      | some cs => parseFloatL cs
      | none => parseFloat "undefined" }

/-- `parseCsvRows(rows)` from the source: map each row to a `RateRecord`. -/
def parseCsvRows (rows : List String) : List RateRecord :=
  rows.map parseCsvRow

example : parseCsvRows ["USD,1.5", "EUR,0.92"] =
    [⟨"USD", JSNum.num (mkRat 3 2)⟩, ⟨"EUR", JSNum.num (mkRat 92 100)⟩] := by decide

example : parseCsvRows [""] = [⟨"", JSNum.nan⟩] := by decide

example : parseCsvRows ["nocomma"] = [⟨"nocomma", JSNum.nan⟩] := by decide

example : parseCsvRows ["GBP,abc"] = [⟨"GBP", JSNum.nan⟩] := by decide

/-- Outcome of the browser `fetch` of `GOOGLE_SHEETS_URL`: either a
network-level failure (the promise rejects) or a response with its `ok`
flag, HTTP status, and body text. -/
inductive FetchOutcome where
  | networkError : FetchOutcome
  | response (ok : Bool) (status : Nat) (body : String) : FetchOutcome
deriving DecidableEq, Repr

/-- The try-block of `getExchangeRates`: `await fetch(...)` rethrows a
network failure, and a non-ok response raises
`new Error('HTTP error! status: ...')`. -/
def fetchAndCheck : FetchOutcome → Except String String
  | FetchOutcome.networkError => Except.error "TypeError: Failed to fetch"
  | FetchOutcome.response ok status body =>
      if ok then Except.ok body
      else Except.error ("Error: HTTP error! status: " ++ toString status)

/-- `csv.split('\n')`. -/
def splitLines (s : String) : List String :=
  (jsSplit '\n' s.data).map String.mk

/-- `getExchangeRates()` from the source, as a function of the fetch
outcome: the catch-block logs via `console.error` and returns `[]`;
otherwise the body is split into lines and parsed.  The returned pair is
(records, console.error entries).  The function is total: no exception
escapes for any fetch outcome. -/
def getExchangeRates (f : FetchOutcome) : List RateRecord × List String :=
  match fetchAndCheck f with
  | Except.error e => ([], ["Error fetching exchange rates: " ++ e])
  | Except.ok body => (parseCsvRows (splitLines body), [])

/-- Match of the regex `\d+(\.\d+)?` anchored at the start of the input:
a maximal digit run, optionally extended by a dot and a further nonempty
maximal digit run (the optional group backtracks to empty when no digit
follows the dot). -/
def matchNumAt (cs : List Char) : Option (List Char) :=
  match cs with
  | [] => none
  | c :: rest =>
    if c.isDigit then
      let ip := (c :: rest).takeWhile Char.isDigit
      let rest1 := (c :: rest).dropWhile Char.isDigit
      match rest1 with
      | '.' :: rest2 =>
        let fp := rest2.takeWhile Char.isDigit
        if fp.isEmpty then some ip else some (ip ++ '.' :: fp)
      | _ => some ip
    else none

/-- Leftmost match of `\d+(\.\d+)?` in the input, i.e. JS
`text.match(/\d+(\.\d+)?/)[0]` when a match exists. -/
def firstNumericMatch : List Char → Option (List Char)
  | [] => none
  | c :: rest =>
    match matchNumAt (c :: rest) with
    | some m => some m
    | none => firstNumericMatch rest

/-- Lines 35-38 of the source: `.textContent.match(/\d+(\.\d+)?/)[0]
.replace(/,/g, '')`; `none` models the TypeError thrown by indexing a
null match result. -/
def extractPriceText (s : String) : Option String :=
  (firstNumericMatch s.data).map (fun m => String.mk (m.filter (fun c => c != ',')))

/-- The extracted price: the matched text put through `parseFloat`
(line 39 of the source). -/
def extractPrice (s : String) : Option JSNum :=
  (extractPriceText s).map parseFloat

/-- JS exception values the script can raise. -/
inductive JSError where
  | typeError (msg : String) : JSError
  | rangeError (msg : String) : JSError
deriving DecidableEq, Repr

/-- ECMA-402 IsWellFormedCurrencyCode: exactly three ASCII letters. -/
def isWellFormedCurrencyCode (s : String) : Bool :=
  s.data.length == 3 && s.data.all Char.isAlpha

/-- ASCII upper-casing of a currency code (ECMA-402 canonicalization). -/
def upperCode (s : String) : String :=
  String.mk (s.data.map Char.toUpper)

/-- CLDR en-US currency symbol for a (canonicalized, upper-case) code:
known codes map to their symbol, unknown ones render as the code followed
by a space. -/
def currencySymbol (c : String) : String :=
  if c = "USD" then "$"
  else if c = "EUR" then "€"
  else if c = "GBP" then "£"
  else if c = "JPY" then "¥"
  else c ++ " "

/-- Hundredths of `q`, rounded half away from zero (the Intl default
rounding mode halfExpand), computed on numerator and denominator. -/
def roundHalfExpandCents (q : ℚ) : Int :=
  let a := q.num * 100
  let b := (q.den : Int)
  if 0 ≤ a then (2 * a + b) / (2 * b) else -((2 * (-a) + b) / (2 * b))

/-- Insert a group separator after every third digit of a reversed digit
list. -/
def groupRev : List Char → List Char
  | a :: b :: c :: d :: rest => a :: b :: c :: ',' :: groupRev (d :: rest)
  | l => l

/-- en-US digit grouping of an integer-part numeral. -/
def groupDigits (s : String) : String :=
  String.mk ((groupRev s.data.reverse).reverse)

/-- Two-digit zero-padded fraction part. -/
def natFrac2 (n : Nat) : String :=
  (if n < 10 then "0" else "") ++ toString n

/-- en-US currency rendering of a finite value: optional sign, symbol,
grouped integer part, and two fraction digits (the claims do not depend on
per-currency fraction-digit counts, so two digits are used throughout). -/
def formatUSStyle (sym : String) (q : ℚ) : String :=
  let cents := roundHalfExpandCents q
  let a := cents.natAbs
  (if cents < 0 then "-" else "") ++ sym ++
    groupDigits (toString (a / 100)) ++ "." ++ natFrac2 (a % 100)

/-- en-US currency rendering of any JS number: NaN renders as the token
`NaN` after the symbol, infinities as the infinity sign. -/
def renderCurrencyValue (sym : String) : JSNum → String
  | JSNum.nan => sym ++ "NaN"
  | JSNum.inf neg => (if neg then "-" else "") ++ sym ++ "∞"
  | JSNum.num q => formatUSStyle sym q

/-- Model of `new Intl.NumberFormat('en-US', { style: 'currency', currency }).format(v)`
from ECMA-402: the constructor throws a RangeError unless the currency
code is well formed (three ASCII letters); otherwise the value is
formatted with the (case-canonicalized) currency's en-US presentation. -/
def intlFormatCurrency (currency : String) (v : JSNum) : Except JSError String :=
  if isWellFormedCurrencyCode currency then
    Except.ok (renderCurrencyValue (currencySymbol (upperCode currency)) v)
  else Except.error (JSError.rangeError ("Invalid currency code: " ++ currency))

/-- Lines 40-46 of the source: `rates.map(({currency, rate}) => ({currency,
value: new Intl.NumberFormat(...).format(price * rate)}))`, evaluated left
to right; the first RangeError thrown inside the callback aborts the map. -/
def formatRates (price : JSNum) : List RateRecord → Except JSError (List (String × String))
  | [] => Except.ok []
  | r :: rest =>
    match intlFormatCurrency r.currency (jsMul price r.rate) with
    | Except.error e => Except.error e
    | Except.ok v =>
      match formatRates price rest with
      | Except.error e => Except.error e
      | Except.ok tail => Except.ok ((r.currency, v) :: tail)

/-- Children of the product-details container, reduced to what the script
distinguishes: the display block it builds (a div with id
`multi-currency-display` holding a heading paragraph and a list of entry
texts) versus any other node.  Model assumption: no other element in the
document carries that id, so `getElementById` resolves within this list. -/
inductive DomNode where
  | displayBlock (heading : String) (items : List String) : DomNode
  | other (tag : String) : DomNode
deriving DecidableEq, Repr

/-- The fixed heading text (line 52 of the source). -/
def headingText : String := "Approximate price in other currencies"

/-- Lines 48-64 of the source: build the div with the heading paragraph
and one list item per formatted rate, in order, each reading
`currency: value`. -/
def buildBlock (frs : List (String × String)) : DomNode :=
  DomNode.displayBlock headingText (frs.map (fun p => p.1 ++ ": " ++ p.2))

/-- Lines 29-32 of the source: `document.getElementById('multi-currency-display')`
finds the first element with the id in document order, and `.remove()`
detaches it; a null lookup is skipped. -/
def removeBlock : List DomNode → List DomNode
  | [] => []
  | DomNode.displayBlock _ _ :: rest => rest
  | n :: rest => n :: removeBlock rest

/-- Number of display blocks carrying the fixed id among a child list. -/
def countBlocks : List DomNode → Nat
  | [] => 0
  | DomNode.displayBlock _ _ :: rest => countBlocks rest + 1
  | _ :: rest => countBlocks rest

/-- The parts of the page the script reads or writes.  An outer `none`
models the corresponding `querySelector` returning null: no
`meta[property~="og:type"]` element, no `.product-price` element, no
`.ProductItem-details-excerpt` container, no
`.variant-select-wrapper select` control. -/
structure PageState where
  ogType : Option String
  priceText : Option String
  details : Option (List DomNode)
  variantSelect : Bool
  variantListeners : Nat
deriving DecidableEq, Repr

/-- Observable side effects of one render cycle: how many network fetches
were performed and which `console.error` entries were written. -/
structure Effects where
  fetches : Nat
  logs : List String
deriving DecidableEq, Repr

deriving instance DecidableEq for Except

/-- Result of one `displayCurrencies()` call: whether the async function
fulfilled or rejected with a JS error, the page state afterwards (DOM
mutations made before a throw persist), and the observable effects. -/
structure DCOutcome where
  result : Except JSError Unit
  state : PageState
  effects : Effects
deriving DecidableEq, Repr

/-- Number of display blocks present on the page. -/
def countBlocksPage (st : PageState) : Nat :=
  match st.details with
  | some ch => countBlocks ch
  | none => 0

/-- `displayCurrencies()` (lines 26-68 of the source), as a function of
the fetch outcome and the page state.  Step order follows the source: read
the og:type meta (null throws), guard on `content == 'product'`, remove
any existing block, fetch and parse the rates, extract the price (a
missing element or missing regex match throws), format each rate (a
malformed currency code throws a RangeError), then build the block and
insert it as first child of the details container (null container
throws). -/
def displayCurrencies (f : FetchOutcome) (st : PageState) : DCOutcome :=
  match st.ogType with
  | none =>
      ⟨Except.error (JSError.typeError "null has no method getAttribute"), st, ⟨0, []⟩⟩
  | some content =>
    if content = "product" then
      let st1 : PageState := { st with details := st.details.map removeBlock }
      let fr := getExchangeRates f
      let eff : Effects := ⟨1, fr.2⟩
      match st1.priceText with
      | none => ⟨Except.error (JSError.typeError "null has no property textContent"), st1, eff⟩
      | some ptxt =>
        match extractPriceText ptxt with
        | none => ⟨Except.error (JSError.typeError "null has no element 0"), st1, eff⟩
        | some numStr =>
          match formatRates (parseFloat numStr) fr.1 with
          | Except.error e => ⟨Except.error e, st1, eff⟩
          | Except.ok frs =>
            match st1.details with
            | none => ⟨Except.error (JSError.typeError "null has no method insertBefore"), st1, eff⟩
            | some children =>
              ⟨Except.ok (), { st1 with details := some (buildBlock frs :: children) }, eff⟩
    else ⟨Except.ok (), st, ⟨0, []⟩⟩

/-- Result of one `initCurrencyConversion()` call: `renderCalls` counts
the `displayCurrencies` invocations it made. -/
structure InitOutcome where
  result : Except JSError Unit
  state : PageState
  effects : Effects
  renderCalls : Nat
deriving DecidableEq, Repr

/-- `initCurrencyConversion()` (lines 70-74 of the source): it calls
`displayCurrencies()` without awaiting it — an async function never throws
synchronously, so a rejected render never propagates here — then looks up
the variant-selection control and attaches a change listener; when the
control is absent the lookup is null and `addEventListener` throws a
TypeError.  The unawaited render and the listener attachment touch
disjoint state, so running the render to completion first is an equivalent
serialization of the event loop. -/
def initCurrencyConversion (f : FetchOutcome) (st : PageState) : InitOutcome :=
  let d := displayCurrencies f st
  if d.state.variantSelect then
    ⟨Except.ok (), { d.state with variantListeners := d.state.variantListeners + 1 },
      d.effects, 1⟩
  else
    ⟨Except.error (JSError.typeError "null has no method addEventListener"),
      d.state, d.effects, 1⟩

/-- The second comma-separated field of a line (the empty string when the
line has fewer than two fields), as destructured by `parseCsvRows`. -/
def secondField (line : String) : String :=
  String.mk ((jsSplit ',' line.data).getD 1 [])

/-- Spec-side value of a plain decimal numeral: the whole character list
must be `digits` or `digits.digits`, and the value is read off exactly.
This is the "well-formed line, rate exactly 12.34" oracle of the spec,
written independently of `parseFloat`, to be compared with it. -/
def specDecimalVal (cs : List Char) : Option ℚ :=
  let ip := cs.takeWhile Char.isDigit
  let rest := cs.dropWhile Char.isDigit
  if ip = [] then none
  else if rest = [] then some (mkRat (digitsVal ip) 1)
  else if rest.headD ' ' = '.' ∧ (rest.tail.all Char.isDigit) then
    some (mkRat ((digitsVal ip * 10 ^ rest.tail.length + digitsVal rest.tail : Nat))
      (10 ^ rest.tail.length))
  else none

/-- A well-formed product page used to instantiate theorems: product
og:type, a price element reading `From $45.99`, a details container with
one pre-existing child, and a variant-selection control. -/
def samplePage : PageState :=
  { ogType := some "product", priceText := some "From $45.99",
    details := some [DomNode.other "p"], variantSelect := true, variantListeners := 0 }

theorem jsSplit_no_sep (sep : Char) (cs : List Char) (h : sep ∉ cs) :
    jsSplit sep cs = [cs] := by
  induction cs with
  | nil => rfl
  | cons a t ih =>
    simp only [List.mem_cons, not_or] at h
    rw [jsSplit, if_neg (fun e => h.1 e.symm), ih h.2]

theorem jsSplit_sep_append (sep : Char) (code rest : List Char) (h : sep ∉ code) :
    jsSplit sep (code ++ sep :: rest) = code :: jsSplit sep rest := by
  induction code with
  | nil => simp [jsSplit]
  | cons a t ih =>
    simp only [List.mem_cons, not_or] at h
    rw [List.cons_append, jsSplit, if_neg (fun e => h.1 e.symm), ih h.2]

theorem takeWhile_all (p : Char → Bool) (l : List Char) (h : ∀ c ∈ l, p c = true) :
    l.takeWhile p = l ∧ l.dropWhile p = [] := by
  induction l with
  | nil => exact ⟨rfl, rfl⟩
  | cons a t ih =>
    have ha : p a = true := h a (List.mem_cons_self a t)
    have ht := ih (fun c hc => h c (List.mem_cons_of_mem a hc))
    simp [List.takeWhile_cons, List.dropWhile_cons, ha, ht.1, ht.2]

theorem takeWhile_all_append (p : Char → Bool) (l r : List Char)
    (h : ∀ c ∈ l, p c = true) :
    (l ++ r).takeWhile p = l ++ r.takeWhile p ∧ (l ++ r).dropWhile p = r.dropWhile p := by
  induction l with
  | nil => exact ⟨rfl, rfl⟩
  | cons a t ih =>
    have ha : p a = true := h a (List.mem_cons_self a t)
    have ht := ih (fun c hc => h c (List.mem_cons_of_mem a hc))
    simp [List.takeWhile_cons, List.dropWhile_cons, ha, ht.1, ht.2]

theorem digit_ne_of (c x : Char) (hc : c.isDigit = true) (hx : x.isDigit = false) :
    ¬ c = x := by
  intro e
  rw [e, hx] at hc
  exact Bool.false_ne_true hc

theorem digit_not_ws (c : Char) (hc : c.isDigit = true) : isJSWhitespace c = false := by
  simp only [isJSWhitespace, Bool.or_eq_false_iff, decide_eq_false_iff_not]
  exact ⟨⟨⟨⟨⟨digit_ne_of c ' ' hc (by decide), digit_ne_of c '\t' hc (by decide)⟩,
    digit_ne_of c '\n' hc (by decide)⟩, digit_ne_of c '\r' hc (by decide)⟩,
    digit_ne_of c '\x0b' hc (by decide)⟩, digit_ne_of c '\x0c' hc (by decide)⟩

theorem infinity_not_prefix_of_digit (c : Char) (t : List Char) (hc : c.isDigit = true) :
    "Infinity".data.isPrefixOf (c :: t) = false := by
  have : "Infinity".data = 'I' :: "nfinity".data := rfl
  rw [this, List.isPrefixOf_cons₂]
  have : ('I' == c) = false := by
    simp only [beq_eq_false_iff_ne, ne_eq]
    exact fun e => digit_ne_of c 'I' hc (by decide) e.symm
  rw [this, Bool.false_and]

theorem numericStart_false_nan (neg : Bool) (cs : List Char)
    (h : numericStart cs = false) : parseFloatSigned neg cs = JSNum.nan := by
  cases cs with
  | nil => rfl
  | cons c rest =>
    simp only [numericStart, Bool.or_eq_false_iff, Bool.and_eq_false_iff,
      decide_eq_false_iff_not] at h
    obtain ⟨⟨hd, hdot⟩, hinf⟩ := h
    simp only [parseFloatSigned.eq_def, hinf, Bool.false_eq_true, if_false, hd]
    by_cases hc : c = '.'
    · rw [if_pos hc]
      rcases hdot with hne | hhd
      · exact absurd hc hne
      · cases rest with
        | nil => rfl
        | cons d t =>
          simp only [headDigit] at hhd
          simp only [hhd, Bool.false_eq_true, if_false]
    · rw [if_neg hc]

theorem parseFloatL_not_numeric (cs : List Char)
    (h : numericStart (splitSign (cs.dropWhile isJSWhitespace)).2 = false) :
    parseFloatL cs = JSNum.nan :=
  numericStart_false_nan _ _ h

theorem parseFloatL_digit_head (a : Char) (t : List Char) (ha : a.isDigit = true) :
    parseFloatL (a :: t) = parseFloatSigned false (a :: t) := by
  rw [parseFloatL, List.dropWhile_cons, if_neg (by rw [digit_not_ws a ha]; exact Bool.false_ne_true)]
  rw [splitSign, if_neg (digit_ne_of a '+' ha (by decide)), if_neg (digit_ne_of a '-' ha (by decide))]

theorem parseFloatL_int_digits (ip : List Char) (hne : ip ≠ [])
    (hd : ∀ c ∈ ip, c.isDigit = true) :
    parseFloatL ip = JSNum.num (mkRat (digitsVal ip) 1) := by
  cases ip with
  | nil => exact absurd rfl hne
  | cons a t =>
    have ha : a.isDigit = true := hd a (List.mem_cons_self a t)
    rw [parseFloatL_digit_head a t ha, parseFloatSigned.eq_def,
      if_neg (by rw [infinity_not_prefix_of_digit a t ha]; exact Bool.false_ne_true)]
    simp only [ha, if_pos]
    have htw := takeWhile_all Char.isDigit (a :: t) hd
    rw [htw.1, htw.2]
    simp [decimalValue, parseExpOpt, digitsVal]

theorem parseFloatL_digits_dot_digits (ip fp : List Char)
    (hipne : ip ≠ []) (hipd : ∀ c ∈ ip, c.isDigit = true)
    (hfpd : ∀ c ∈ fp, c.isDigit = true) :
    parseFloatL (ip ++ '.' :: fp) =
      JSNum.num (mkRat ((digitsVal ip * 10 ^ fp.length + digitsVal fp : Nat)) (10 ^ fp.length)) := by
  cases ip with
  | nil => exact absurd rfl hipne
  | cons a t =>
    have ha : a.isDigit = true := hipd a (List.mem_cons_self a t)
    rw [List.cons_append, parseFloatL_digit_head a _ ha, parseFloatSigned.eq_def,
      if_neg (by rw [infinity_not_prefix_of_digit _ _ ha]; exact Bool.false_ne_true)]
    simp only [ha, if_pos]
    rw [← List.cons_append]
    have htw := takeWhile_all_append Char.isDigit (a :: t) ('.' :: fp) hipd
    have hdot : Char.isDigit '.' = false := by decide
    rw [htw.1, htw.2, List.takeWhile_cons, if_neg (by rw [hdot]; exact Bool.false_ne_true),
      List.dropWhile_cons, if_neg (by rw [hdot]; exact Bool.false_ne_true), List.append_nil]
    have hfw := takeWhile_all Char.isDigit fp hfpd
    simp [hfw.1, hfw.2, decimalValue, parseExpOpt]

theorem specDecimalVal_spec (cs : List Char) (q : ℚ) (h : specDecimalVal cs = some q) :
    parseFloatL cs = JSNum.num q ∧ ',' ∉ cs := by
  have hipd : ∀ c ∈ cs.takeWhile Char.isDigit, Char.isDigit c = true :=
    fun c hc => List.mem_takeWhile_imp hc
  have hcs : cs.takeWhile Char.isDigit ++ cs.dropWhile Char.isDigit = cs :=
    List.takeWhile_append_dropWhile Char.isDigit cs
  simp only [specDecimalVal] at h
  by_cases hemp : cs.takeWhile Char.isDigit = []
  · rw [if_pos hemp] at h; exact absurd h (by simp)
  · rw [if_neg hemp] at h
    rcases hrest : cs.dropWhile Char.isDigit with _ | ⟨c, fp⟩
    · rw [hrest, if_pos rfl] at h
      injection h with hq
      constructor
      · rw [← hcs, hrest, List.append_nil, ← hq]
        exact parseFloatL_int_digits _ hemp hipd
      · rw [← hcs, hrest, List.append_nil]
        exact fun hm => absurd (hipd ',' hm) (by decide)
    · rw [hrest, if_neg (List.cons_ne_nil c fp)] at h
      simp only [List.headD_cons, List.tail_cons] at h
      by_cases hdot : c = '.' ∧ (fp.all Char.isDigit = true)
      · rw [if_pos hdot] at h
        injection h with hq
        obtain ⟨hc, hfad⟩ := hdot
        subst hc
        have hfpd : ∀ x ∈ fp, Char.isDigit x = true := by
          simpa [List.all_eq_true] using hfad
        constructor
        · rw [← hcs, hrest, ← hq]
          exact parseFloatL_digits_dot_digits _ _ hemp hipd hfpd
        · rw [← hcs, hrest]
          intro hm
          rcases List.mem_append.mp hm with hm | hm
          · exact absurd (hipd ',' hm) (by decide)
          · rcases List.mem_cons.mp hm with he | hm
            · exact absurd he (by decide)
            · exact absurd (hfpd ',' hm) (by decide)
      · rw [if_neg hdot] at h
        exact absurd h (by simp)

theorem displayCurrencies_frame (f : FetchOutcome) (st : PageState) :
    (displayCurrencies f st).state.variantSelect = st.variantSelect ∧
    (displayCurrencies f st).state.variantListeners = st.variantListeners ∧
    (displayCurrencies f st).state.ogType = st.ogType ∧
    (displayCurrencies f st).state.priceText = st.priceText := by
  obtain ⟨og, pt, dt, vs, vl⟩ := st
  unfold displayCurrencies
  cases og with
  | none => exact ⟨rfl, rfl, rfl, rfl⟩
  | some content =>
    dsimp only
    by_cases hc : content = "product"
    · rw [if_pos hc]
      repeat' split
      all_goals exact ⟨rfl, rfl, rfl, rfl⟩
    · rw [if_neg hc]
      exact ⟨rfl, rfl, rfl, rfl⟩

theorem countBlocks_removeBlock (l : List DomNode) :
    countBlocks (removeBlock l) = countBlocks l - 1 := by
  induction l with
  | nil => rfl
  | cons a t ih =>
    cases a with
    | displayBlock h i => simp [removeBlock, countBlocks]
    | other tag => simp [removeBlock, countBlocks, ih]

/-- C1: whenever the fetch fails at the network level or the HTTP status is
not a success status, `getExchangeRates` returns the empty sequence of rate
records and writes exactly one diagnostic log entry; it is a total function
of the fetch outcome, so no exception escapes from it. -/
theorem getExchangeRates_fail_soft (f : FetchOutcome)
    (h : f = FetchOutcome.networkError ∨
      ∃ status body, f = FetchOutcome.response false status body) :
    (getExchangeRates f).1 = [] ∧ (getExchangeRates f).2.length = 1 := by
  rcases h with rfl | ⟨status, body, rfl⟩ <;> simp [getExchangeRates, fetchAndCheck]

/-- C1 witness: the fail-soft theorem applied to a network-level failure. -/
theorem getExchangeRates_fail_soft_witness :
    (getExchangeRates FetchOutcome.networkError).1 = [] ∧
    (getExchangeRates FetchOutcome.networkError).2.length = 1 :=
  getExchangeRates_fail_soft FetchOutcome.networkError (Or.inl rfl)

/-- C3: every input line that is missing a comma, or whose second field is
not numeric, yields a record whose rate is NaN; and `parseCsvRows` is a
total function producing one record per line, so it never throws. -/
theorem parseCsvRows_malformed_nan (rows : List String) (i : Nat) (line : String)
    (hline : rows.get? i = some line)
    (hbad : ',' ∉ line.data ∨ numericField (secondField line) = false) :
    (parseCsvRows rows).length = rows.length ∧
    ∃ r, (parseCsvRows rows).get? i = some r ∧ r.rate = JSNum.nan := by
  refine ⟨by simp [parseCsvRows], parseCsvRow line, ?_, ?_⟩
  · rw [parseCsvRows, List.get?_map, hline, Option.map_some']
  · rcases hbad with hnc | hnn
    · have hsp : jsSplit ',' line.data = [line.data] := jsSplit_no_sep ',' line.data hnc
      simp only [parseCsvRow, hsp, List.get?_cons_succ, List.get?_nil]
      decide
    · rcases hg : (jsSplit ',' line.data).get? 1 with _ | cs
      · simp only [parseCsvRow, hg]
        decide
      · have hsf : (secondField line).data = cs := by
          simp only [secondField]
          rw [List.getD_eq_getD_get?, hg]
          rfl
        simp only [parseCsvRow, hg]
        apply parseFloatL_not_numeric
        unfold numericField at hnn
        rw [hsf] at hnn
        exact hnn

/-- C3 witness: the malformed-line theorem applied to a line whose second
field is not numeric. -/
theorem parseCsvRows_malformed_nan_witness :
    (parseCsvRows ["GBP,abc"]).length = (["GBP,abc"] : List String).length ∧
    ∃ r, (parseCsvRows ["GBP,abc"]).get? 0 = some r ∧ r.rate = JSNum.nan :=
  parseCsvRows_malformed_nan ["GBP,abc"] 0 "GBP,abc" rfl (Or.inr (by decide))

/-- C4: on a page whose og:type content is not `product`, `displayCurrencies`
performs no fetch (the fetch counter stays 0), writes no log, and returns
the page state unchanged, so no display block is inserted. -/
theorem displayCurrencies_non_product (f : FetchOutcome) (st : PageState) (c : String)
    (hog : st.ogType = some c) (hc : c ≠ "product") :
    displayCurrencies f st = ⟨Except.ok (), st, ⟨0, []⟩⟩ := by
  unfold displayCurrencies
  rw [hog]
  dsimp only
  rw [if_neg hc]

/-- C4 witness: the non-product theorem applied to an article page. -/
theorem displayCurrencies_non_product_witness :
    displayCurrencies FetchOutcome.networkError
        { samplePage with ogType := some "article" } =
      ⟨Except.ok (), { samplePage with ogType := some "article" }, ⟨0, []⟩⟩ :=
  displayCurrencies_non_product FetchOutcome.networkError
    { samplePage with ogType := some "article" } "article" rfl (by decide)

/-- C5: a well-formed line made of a comma-free currency code, a comma, and
a plain decimal numeral parses to a record holding the code verbatim and
the numeral's exact value. -/
theorem parseCsvRows_wellformed_exact (rows : List String) (i : Nat)
    (code numc : List Char) (q : ℚ)
    (hline : rows.get? i = some (String.mk (code ++ ',' :: numc)))
    (hcode : ',' ∉ code)
    (hq : specDecimalVal numc = some q) :
    (parseCsvRows rows).get? i = some ⟨String.mk code, JSNum.num q⟩ := by
  have hspec := specDecimalVal_spec numc q hq
  simp only [parseCsvRows, List.get?_map, hline, Option.map_some']
  unfold parseCsvRow
  have hdata : (String.mk (code ++ ',' :: numc)).data = code ++ ',' :: numc := rfl
  rw [hdata, jsSplit_sep_append ',' code numc hcode, jsSplit_no_sep ',' numc hspec.2]
  simp only [List.headD_cons, List.get?_cons_succ, List.get?_cons_zero, hspec.1]

/-- C5 witness: the well-formed-line theorem applied to `USD,1.5`. -/
theorem parseCsvRows_wellformed_exact_witness :
    (parseCsvRows [String.mk ("USD".data ++ ',' :: "1.5".data)]).get? 0 =
      some ⟨String.mk "USD".data, JSNum.num (mkRat 3 2)⟩ :=
  parseCsvRows_wellformed_exact [String.mk ("USD".data ++ ',' :: "1.5".data)] 0
    "USD".data "1.5".data (mkRat 3 2) rfl (by decide) (by decide)

theorem displayCurrencies_run (f : FetchOutcome) (st : PageState)
    (ptxt numStr : String) (ch : List DomNode) (frs : List (String × String))
    (hog : st.ogType = some "product")
    (hp : st.priceText = some ptxt)
    (hm : extractPriceText ptxt = some numStr)
    (hch : st.details = some ch)
    (hfmt : formatRates (parseFloat numStr) (getExchangeRates f).1 = Except.ok frs) :
    displayCurrencies f st =
      ⟨Except.ok (), { st with details := some (buildBlock frs :: removeBlock ch) },
        ⟨1, (getExchangeRates f).2⟩⟩ := by
  unfold displayCurrencies
  rw [hog]
  dsimp only
  rw [if_pos rfl, hp]
  dsimp only
  rw [hm]
  dsimp only
  rw [hfmt]
  dsimp only
  rw [hch]
  dsimp only [Option.map_some']

/-- C2: running the render cycle twice in succession on an unchanged,
well-formed product page (at most one block present initially, as on any
page the script itself has produced) leaves exactly one display block
carrying the fixed identifier: each run removes the previous block before
inserting its own. -/
theorem displayCurrencies_twice_one_block (f : FetchOutcome) (st : PageState)
    (ptxt numStr : String) (ch : List DomNode) (frs : List (String × String))
    (hog : st.ogType = some "product")
    (hp : st.priceText = some ptxt)
    (hm : extractPriceText ptxt = some numStr)
    (hch : st.details = some ch)
    (hcnt : countBlocks ch ≤ 1)
    (hfmt : formatRates (parseFloat numStr) (getExchangeRates f).1 = Except.ok frs) :
    countBlocksPage (displayCurrencies f (displayCurrencies f st).state).state = 1 := by
  have h1 := displayCurrencies_run f st ptxt numStr ch frs hog hp hm hch hfmt
  rw [h1]
  have h2 := displayCurrencies_run f { st with details := some (buildBlock frs :: removeBlock ch) }
    ptxt numStr (buildBlock frs :: removeBlock ch) frs hog hp hm rfl hfmt
  rw [h2]
  have hrem : removeBlock (buildBlock frs :: removeBlock ch) = removeBlock ch := rfl
  dsimp only [countBlocksPage]
  rw [hrem]
  simp only [buildBlock, countBlocks]
  have := countBlocks_removeBlock ch
  omega

/-- C2 witness: two runs on a concrete product page that starts with no
block end with exactly one block. -/
theorem displayCurrencies_twice_one_block_witness :
    countBlocksPage (displayCurrencies FetchOutcome.networkError
      (displayCurrencies FetchOutcome.networkError samplePage).state).state = 1 :=
  displayCurrencies_twice_one_block FetchOutcome.networkError samplePage
    "From $45.99" "45.99" [DomNode.other "p"] [] rfl rfl (by decide) rfl
    (by decide) (by decide)

/-- C8: on a product page whose price text contains no digit run, the
render cycle (run against a successful fetch) rejects with a TypeError at
the price-extraction step, inserts no display block (the page keeps only
the removal of any stale block), and writes no log entry. -/
theorem displayCurrencies_no_price_match (st : PageState) (status : Nat)
    (body ptxt : String)
    (hog : st.ogType = some "product")
    (hp : st.priceText = some ptxt)
    (hm : extractPriceText ptxt = none) :
    (displayCurrencies (FetchOutcome.response true status body) st).result =
        Except.error (JSError.typeError "null has no element 0") ∧
    (displayCurrencies (FetchOutcome.response true status body) st).effects.logs = [] ∧
    (displayCurrencies (FetchOutcome.response true status body) st).state.details =
        st.details.map removeBlock := by
  unfold displayCurrencies
  rw [hog]
  dsimp only
  rw [if_pos rfl, hp]
  dsimp only
  rw [hm]
  exact ⟨rfl, rfl, rfl⟩

/-- C8 witness: the silent-abort theorem applied to a page whose price text
has no digits. -/
theorem displayCurrencies_no_price_match_witness :
    (displayCurrencies (FetchOutcome.response true 200 "USD,1.5")
        { samplePage with priceText := some "contact us" }).result =
        Except.error (JSError.typeError "null has no element 0") ∧
    (displayCurrencies (FetchOutcome.response true 200 "USD,1.5")
        { samplePage with priceText := some "contact us" }).effects.logs = [] ∧
    (displayCurrencies (FetchOutcome.response true 200 "USD,1.5")
        { samplePage with priceText := some "contact us" }).state.details =
        ({ samplePage with priceText := some "contact us" } : PageState).details.map removeBlock :=
  displayCurrencies_no_price_match { samplePage with priceText := some "contact us" }
    200 "USD,1.5" "contact us" rfl rfl (by decide)

/-- C10: when `getExchangeRates` yields zero records and price extraction
succeeds on a product page, the render cycle still completes and inserts a
display block — the fixed heading with an empty list — as the first child
of the details container. -/
theorem displayCurrencies_zero_rates_inserts (f : FetchOutcome) (st : PageState)
    (ptxt numStr : String) (ch : List DomNode)
    (hog : st.ogType = some "product")
    (hrates : (getExchangeRates f).1 = [])
    (hp : st.priceText = some ptxt)
    (hm : extractPriceText ptxt = some numStr)
    (hch : st.details = some ch) :
    (displayCurrencies f st).result = Except.ok () ∧
    (displayCurrencies f st).state.details =
      some (DomNode.displayBlock headingText [] :: removeBlock ch) := by
  have hfmt : formatRates (parseFloat numStr) (getExchangeRates f).1 = Except.ok [] := by
    rw [hrates]; rfl
  have h1 := displayCurrencies_run f st ptxt numStr ch [] hog hp hm hch hfmt
  rw [h1]
  exact ⟨rfl, rfl⟩

/-- C10 witness: after a failed fetch (zero records), the block with the
heading and an empty list is still inserted first. -/
theorem displayCurrencies_zero_rates_inserts_witness :
    (displayCurrencies FetchOutcome.networkError samplePage).result = Except.ok () ∧
    (displayCurrencies FetchOutcome.networkError samplePage).state.details =
      some (DomNode.displayBlock headingText [] :: removeBlock [DomNode.other "p"]) :=
  displayCurrencies_zero_rates_inserts FetchOutcome.networkError samplePage
    "From $45.99" "45.99" [DomNode.other "p"] rfl rfl rfl (by decide) rfl

/-- C6 counterexample: for the thousands-separated price text `$1,234.56`
the extracted value is 1, not 1234.56 — the regex match stops at the comma
and the comma-stripping only applies to the already-matched run. -/
theorem extractPrice_thousands_cex :
    extractPrice "$1,234.56" = some (JSNum.num (mkRat 1 1)) ∧
    JSNum.num (mkRat 1 1) ≠ JSNum.num (mkRat 123456 100) := by decide

/-- C6 amended: the extractor takes the first run of digits optionally
extended by a decimal part; `From $45.99` yields 45.99, but a
thousands-separated `$1,234.56` yields only the leading group, 1. -/
theorem extractPrice_first_digit_run :
    extractPrice "From $45.99" = some (JSNum.num (mkRat 4599 100)) ∧
    extractPrice "$1,234.56" = some (JSNum.num (mkRat 1 1)) := by decide

/-- C7 counterexample: the parser-produced record of a trailing empty line
has an empty currency code and NaN rate, and the formatting step raises a
RangeError on it instead of producing a string. -/
theorem formatRates_trailing_empty_line_raises :
    parseCsvRows (splitLines "USD,1.5\n") =
      [⟨"USD", JSNum.num (mkRat 3 2)⟩, ⟨"", JSNum.nan⟩] ∧
    formatRates (JSNum.num (mkRat 4599 100)) (parseCsvRows (splitLines "USD,1.5\n")) =
      Except.error (JSError.rangeError "Invalid currency code: ") := by decide

/-- C7 amended: for a record with a well-formed (three-letter) currency
code and NaN rate, formatting throws nothing and yields the symbol followed
by the non-numeric token `NaN`; only records with malformed codes (such as
the empty code of a trailing empty line) make the formatter throw. -/
theorem intlFormatCurrency_nan_token (price : JSNum) (c : String)
    (h : isWellFormedCurrencyCode c = true) :
    intlFormatCurrency c (jsMul price JSNum.nan) =
      Except.ok (currencySymbol (upperCode c) ++ "NaN") := by
  have hm : jsMul price JSNum.nan = JSNum.nan := by cases price <;> rfl
  rw [hm, intlFormatCurrency, if_pos h]
  rfl

/-- C7 amended witness: NaN times the page price formats as `$NaN` under
the well-formed code USD. -/
theorem intlFormatCurrency_nan_token_witness :
    intlFormatCurrency "USD" (jsMul (JSNum.num (mkRat 4599 100)) JSNum.nan) =
      Except.ok (currencySymbol (upperCode "USD") ++ "NaN") :=
  intlFormatCurrency_nan_token (JSNum.num (mkRat 4599 100)) "USD" (by decide)

/-- C9 counterexample: on a page without a variant-selection control,
`initCurrencyConversion` rejects with a TypeError instead of completing. -/
theorem initCurrencyConversion_no_variant_throws :
    (initCurrencyConversion FetchOutcome.networkError
        { samplePage with variantSelect := false }).result =
      Except.error (JSError.typeError "null has no method addEventListener") := by decide

/-- C9 amended: on each page-ready signal the controller invokes the
renderer exactly once and, when a variant-selection control is present,
attaches one change listener and completes without throwing; when the
control is absent it still invokes the renderer once but then throws a
TypeError. -/
theorem initCurrencyConversion_with_variant (f : FetchOutcome) (st : PageState)
    (h : st.variantSelect = true) :
    (initCurrencyConversion f st).result = Except.ok () ∧
    (initCurrencyConversion f st).renderCalls = 1 ∧
    (initCurrencyConversion f st).state.variantListeners = st.variantListeners + 1 := by
  have hf := displayCurrencies_frame f st
  unfold initCurrencyConversion
  dsimp only
  rw [hf.1, if_pos h]
  exact ⟨rfl, rfl, by dsimp only; rw [hf.2.1]⟩

/-- C9 amended witness: initialization on a page with a variant control
completes, renders once, and attaches one listener. -/
theorem initCurrencyConversion_with_variant_witness :
    (initCurrencyConversion FetchOutcome.networkError samplePage).result = Except.ok () ∧
    (initCurrencyConversion FetchOutcome.networkError samplePage).renderCalls = 1 ∧
    (initCurrencyConversion FetchOutcome.networkError samplePage).state.variantListeners =
      samplePage.variantListeners + 1 :=
  initCurrencyConversion_with_variant FetchOutcome.networkError samplePage rfl
